import Mathlib

/-!
Verification of the E2EAuto browser-automation repository (src/utils.js and
src/automation.js) against its natural-language specification.

The JavaScript source is shallowly embedded: each method becomes a Lean
function over an abstract page/environment record whose boolean fields state
which DOM probes succeed.  Asynchronous driver calls that can only succeed or
throw are modelled as booleans; a promise that may never resolve is modelled
by an `Option` result where `none` means the await suspends forever.  Event
traces record the order of side-effecting actions so that ordering and
counting claims can be stated.
-/

namespace E2EAuto

/-! ## Utils.waitForSelector (src/utils.js lines 40-55)

The page is abstracted by the predicate `visible s`: whether
`page.waitForSelector(s, { timeout, visible: true })` resolves within its
allotted timeout.  The function returns the matching selector (`some s`) or
throws (`none`), together with the list of selectors actually probed, in
probe order. -/

def waitForSelector (visible : String → Bool) : List String → Option String × List String
  | [] => (none, [])
  | s :: rest =>
    if visible s then (some s, [s])
    else
      let r := waitForSelector visible rest
      (r.1, s :: r.2)

/-! ## Utils.clickElement (src/utils.js lines 58-85)

`clickElement` loops `attempt = 1 .. retries`; inside each pass it loops over
the selector list, calling `page.waitForSelector(sel, { timeout: timeout / retries })`
and then `page.click(sel)`, returning `true` on the first selector whose wait
and click both succeed.  The page is abstracted by two pass-indexed
predicates, since the DOM can change between passes.  Every wait call is
recorded with the timeout slice it was given (a rational, as JavaScript
division is exact here). -/

structure ClickPage where
  waitOk : Nat → String → Bool
  clickOk : Nat → String → Bool

structure WaitCall where
  pass : Nat
  sel : String
  slice : ℚ
deriving DecidableEq, Repr

def clickPass (pg : ClickPage) (slice : ℚ) (a : Nat) : List String → Bool × List WaitCall
  | [] => (false, [])
  | s :: rest =>
    let call : WaitCall := ⟨a, s, slice⟩
    if pg.waitOk a s && pg.clickOk a s then (true, [call])
    else
      let r := clickPass pg slice a rest
      (r.1, call :: r.2)

def clickElementGo (pg : ClickPage) (sels : List String) (slice : ℚ) (a : Nat) :
    Nat → Bool × List WaitCall
  | 0 => (false, [])
  | Nat.succ r =>
    let p := clickPass pg slice a sels
    if p.1 then (true, p.2)
    else
      let next := clickElementGo pg sels slice (a + 1) r
      (next.1, p.2 ++ next.2)

def clickElement (pg : ClickPage) (sels : List String) (timeout : ℚ) (retries : Nat) :
    Bool × List WaitCall :=
  clickElementGo pg sels (timeout / (retries : ℚ)) 1 retries

/-! ## Utils.elementExists and Utils.closeModalIfPresent (src/utils.js lines 121-153)

`closeModalIfPresent` scans the selector list with `elementExists(sel, 2000)`;
on the first hit it clicks and returns `true`.  If no selector exists it
presses Escape inside a `try` and returns `true`, or `false` only when the
keypress throws. -/

structure ModalPage where
  exists2s : String → Bool
  escapeOk : Bool

def closeModalIfPresent (pg : ModalPage) : List String → Bool
  | [] => pg.escapeOk
  | s :: rest => if pg.exists2s s then true else closeModalIfPresent pg rest

def lastPass (t : List WaitCall) : Option Nat := (t.map WaitCall.pass).getLast?

/-! ## getCartCount (src/automation.js lines 171-190)

The page evaluation reads the text of the checkout-badge span (empty string
when the element is missing), applies JavaScript `parseInt(txt, 10)` after a
`trim()`, and on `NaN` falls back to the first decimal-digit run inside the
first element whose text matches the word `cart`; any failure of the
evaluation itself is caught and yields 0.  `jsParseInt` models
`parseInt(s, 10)`: skip whitespace, optional sign, then a leading digit run,
`none` when no digit follows. -/

def isJsSpace (c : Char) : Bool := c = ' ' || c = '\t' || c = '\n' || c = '\r'

def jsTrim (cs : List Char) : List Char :=
  ((cs.dropWhile isJsSpace).reverse.dropWhile isJsSpace).reverse

def digitsValGo : List Char → Nat → Nat
  | [], acc => acc
  | c :: rest, acc => if c.isDigit then digitsValGo rest (acc * 10 + (c.toNat - 48)) else acc

def leadingDigitsVal : List Char → Option Nat
  | [] => none
  | c :: rest => if c.isDigit then some (digitsValGo rest (c.toNat - 48)) else none

def jsParseInt (s : String) : Option Int :=
  match jsTrim s.toList with
  | '-' :: rest => (leadingDigitsVal rest).map fun n => -(n : Int)
  | '+' :: rest => (leadingDigitsVal rest).map fun n => (n : Int)
  | cs => (leadingDigitsVal cs).map fun n => (n : Int)

def firstNumberGo : List Char → Option Nat
  | [] => none
  | c :: rest => if c.isDigit then some (digitsValGo rest (c.toNat - 48)) else firstNumberGo rest

def firstNumber (s : String) : Option Nat := firstNumberGo s.toList

structure CartDom where
  badgeText : Option String
  cartNodeText : Option String
  evalFails : Bool
deriving DecidableEq

def getCartCount (d : CartDom) : Int :=
  if d.evalFails then 0
  else
    match jsParseInt (d.badgeText.getD "") with
    | some n => n
    | none =>
      match d.cartNodeText with
      | some t =>
        match firstNumber t with
        | some m => (m : Int)
        | none => 0
      | none => 0

/-! ## The two-phase OTP wait inside signin (src/automation.js lines 960-1008)

Phase A polls (bounded by 30000 ms) for a modal container whose text matches
the verify-OTP patterns or that holds an input with `maxlength="1"` or an
otp-hinted `autocomplete`/`aria-label`.  Phase B polls (bounded by 60000 ms)
for the Lenskart signed-in signal (sign-in form gone and header or account
button present) or, generically, for the challenge being invisible combined
with the sign-in trigger being absent or the header showing signed-in text.
Both polls sit in `try`/`catch`; expiry only logs and `signin` still returns
`true`.  `phaseApredClaim` is modelled from the spec: Phase A waits for
labelled dialog text or a cluster of 4 to 6 single-character input fields. -/

structure OtpInput where
  maxlenOne : Bool
  otpHint : Bool
deriving DecidableEq

structure AuthDomA where
  containerPresent : Bool
  verifyText : Bool
  inputs : List OtpInput
deriving DecidableEq

def phaseApred (d : AuthDomA) : Bool :=
  d.containerPresent && (d.verifyText || d.inputs.any fun i => i.maxlenOne || i.otpHint)

def phaseApredClaim (d : AuthDomA) : Bool :=
  d.containerPresent &&
    (d.verifyText ||
      (decide (4 ≤ (d.inputs.filter fun i => i.maxlenOne).length) &&
        decide ((d.inputs.filter fun i => i.maxlenOne).length ≤ 6)))

structure AuthDomB where
  signInFormPresent : Bool
  headerWrapperPresent : Bool
  userButtonPresent : Bool
  containerPresent : Bool
  containerOtpText : Bool
  containerMaxlenOneInput : Bool
  signInNodePresent : Bool
  signedInHeaderText : Bool
deriving DecidableEq

def phaseBpred (d : AuthDomB) : Bool :=
  if !d.signInFormPresent && (d.headerWrapperPresent || d.userButtonPresent) then true
  else
    let authVisible := d.containerPresent && (d.containerOtpText || d.containerMaxlenOneInput)
    !authVisible && (!d.signInNodePresent || d.signedInHeaderText)

def waitPollGo (p : Nat → Bool) : Nat → Nat → Option Nat
  | _, 0 => none
  | t, Nat.succ r => if p t then some t else waitPollGo p (t + 1) r

def waitPoll (p : Nat → Bool) (bound : Nat) : Option Nat := waitPollGo p 0 (bound + 1)

def phaseATimeoutMs : Nat := 30000

def phaseBTimeoutMs : Nat := 60000

inductive WaitOutcome
  | signedIn
  | timedOut
deriving DecidableEq

def otpWaitTail (a : Nat → AuthDomA) (b : Nat → AuthDomB) : WaitOutcome × Bool :=
  let _phaseA := waitPoll (fun t => phaseApred (a t)) phaseATimeoutMs
  match waitPoll (fun t => phaseBpred (b t)) phaseBTimeoutMs with
  | some _ => (WaitOutcome.signedIn, true)
  | none => (WaitOutcome.timedOut, true)

/-! ## The Lenskart branch of signin (src/automation.js lines 244-458)

Control flow, abstracted over which page probes succeed.  The events record
the side-effecting actions in program order; `otpWaitEv` marks reaching the
common OTP wait (lines 946-1008).  The `page.click` on the submit button at
line 338 is not wrapped in an inner `try`, so its failure aborts the whole
Lenskart block (the `catch` at line 455 logs and falls through to the OTP
wait); the corresponding click at line 407 sits inside the `try` spanning
lines 389-453, so its failure only ends that block.  The inner form-fill and
sign-in-submit attempts after a pivot are each wrapped in their own
`try`/`catch` and are modelled as single attempt events. -/

inductive AuthMode
  | auto
  | signin
  | signup
deriving DecidableEq, Fintype

inductive AuthEvent
  | openCreateAccount
  | typeLoginId
  | clickSignInMain
  | fillSignupForm
  | submitSignup
  | pivotToSignIn
  | fillSignInPhone
  | submitSignIn
  | otpWaitEv
deriving DecidableEq

structure LkAuthEnv where
  mode : AuthMode
  dialogAppears : Bool
  createOpensSignup : Bool
  firstNameAppears : Bool
  loginInputFound : Bool
  signInClickOk : Bool
  createOpens : Bool
  submitSignup1Ok : Bool
  existsMsg1 : Bool
  pivotLinkOk1 : Bool
  submitSignup2Ok : Bool
  existsMsg2 : Bool
  pivotLinkOk2 : Bool
deriving DecidableEq

def pivotEvents (linkOk : Bool) : List AuthEvent :=
  AuthEvent.pivotToSignIn ::
    (if linkOk then [AuthEvent.fillSignInPhone, AuthEvent.submitSignIn] else [])

def signupResubmit (e : LkAuthEnv) : List AuthEvent :=
  AuthEvent.fillSignupForm ::
    (if e.submitSignup2Ok then
      AuthEvent.submitSignup ::
        (if e.existsMsg2 then pivotEvents e.pivotLinkOk2 else [])
    else [])

def lenskartSignin (e : LkAuthEnv) : List AuthEvent :=
  if !e.dialogAppears then [AuthEvent.otpWaitEv]
  else
    let preA : List AuthEvent :=
      if e.mode = AuthMode.signup && e.createOpensSignup then [AuthEvent.openCreateAccount]
      else []
    let didOpenSignupForm0 : Bool := e.mode = AuthMode.signup && e.firstNameAppears
    let preB : List AuthEvent :=
      if e.mode ≠ AuthMode.signup && e.loginInputFound then [AuthEvent.typeLoginId] else []
    let signInClickable : Bool := e.mode ≠ AuthMode.signup && e.signInClickOk
    let preC : List AuthEvent :=
      if signInClickable then [AuthEvent.clickSignInMain] else []
    let pre := preA ++ preB ++ preC
    if !didOpenSignupForm0 && !signInClickable && e.mode ≠ AuthMode.signin then
      if e.createOpens then
        if !e.submitSignup1Ok then
          pre ++ [AuthEvent.openCreateAccount, AuthEvent.fillSignupForm, AuthEvent.otpWaitEv]
        else if e.existsMsg1 then
          pre ++ [AuthEvent.openCreateAccount, AuthEvent.fillSignupForm, AuthEvent.submitSignup] ++
            pivotEvents e.pivotLinkOk1 ++ [AuthEvent.otpWaitEv]
        else
          pre ++ [AuthEvent.openCreateAccount, AuthEvent.fillSignupForm, AuthEvent.submitSignup] ++
            signupResubmit e ++ [AuthEvent.otpWaitEv]
      else pre ++ [AuthEvent.otpWaitEv]
    else if didOpenSignupForm0 then pre ++ signupResubmit e ++ [AuthEvent.otpWaitEv]
    else pre ++ [AuthEvent.otpWaitEv]

def countPivots (t : List AuthEvent) : Nat := t.count AuthEvent.pivotToSignIn

def afterFirstPivot (t : List AuthEvent) : List AuthEvent :=
  t.dropWhile fun x => x != AuthEvent.pivotToSignIn

/-! ## handleCustomization, Swiggy branch (src/automation.js lines 1156-1251)

After a short poll, a present modal starts the fixed-budget ladder: for at
most 6 steps, (1) a `menu-customize-continue-button` is clicked and the loop
continues; (2) otherwise a `customize-footer-add-button` (or an
add-item-to-cart labelled control in the dialog) is clicked and the loop
completes; (3) otherwise, when a visible radio exists, the first unchecked
one (or the first) is clicked and the loop continues; (4) otherwise any
dialog button labelled continue/add is clicked as a last resort and the loop
continues.  When the loop ends without completing, a final direct
`clickElement` at the configured submit selectors is made; the method then
logs success and returns `true` (it returns `false` only on an internal
exception).  When no modal appears, a bare quick-add button is clicked when
present, and the method returns `true` either way.  `steps` gives the live
document state the loop observes at each iteration. -/

structure CustStep where
  continueBtn : Bool
  addBtnDataCy : Bool
  addBtnByText : Bool
  visibleRadio : Bool
  lastResortBtn : Bool
deriving DecidableEq

inductive CustEvent
  | clickContinue (step : Nat)
  | clickFinalAdd (step : Nat)
  | pickRadio (step : Nat)
  | lastResortClick (step : Nat)
  | quickAddClick
  | finalDirectAttempt
deriving DecidableEq

structure CustEnv where
  modalPresent : Bool
  quickAdd : Bool
  steps : Nat → CustStep

def custLoop (steps : Nat → CustStep) : Nat → Nat → Bool × List CustEvent
  | _, 0 => (false, [])
  | step, Nat.succ fuel =>
    let st := steps step
    if st.continueBtn then
      let r := custLoop steps (step + 1) fuel
      (r.1, CustEvent.clickContinue step :: r.2)
    else if st.addBtnDataCy || st.addBtnByText then (true, [CustEvent.clickFinalAdd step])
    else if st.visibleRadio then
      let r := custLoop steps (step + 1) fuel
      (r.1, CustEvent.pickRadio step :: r.2)
    else
      let r := custLoop steps (step + 1) fuel
      (r.1, (if st.lastResortBtn then [CustEvent.lastResortClick step] else []) ++ r.2)

def handleCustomization (e : CustEnv) : Bool × List CustEvent :=
  if e.modalPresent then
    let r := custLoop e.steps 0 6
    if r.1 then (true, r.2) else (true, r.2 ++ [CustEvent.finalDirectAttempt])
  else if e.quickAdd then (true, [CustEvent.quickAddClick])
  else (true, [])

/-! ## The Swiggy branch of addToCart (src/automation.js lines 1444-1641)

The initial cart count is read with `getCartCount` from the page state
`domBefore`.  An ADD control is clicked (hardware scan, then selector
fallback, then open-restaurant-and-retry); a details dialog's ADD is clicked
when present; `handleCustomization` is invoked with its result ignored; when
the `addedOk` evaluation is negative, one final Add is clicked (modal add
button, else card ADD); then the count is re-read from `domAfter` and, when
it did not increase, one more Add click is issued — after which the method
logs success and returns `true` unconditionally. -/

inductive SwEvent
  | addClick
  | openRestaurant
  | menuAddClick
  | detailsDialogAdd
  | runCustomization
  | verifyRetryModalAdd
  | verifyRetryCardAdd
  | countRetryModalAdd
  | countRetryCardAdd
  | returnFalse
  | returnTrue
deriving DecidableEq

structure SwiggyPage where
  domBefore : CartDom
  hwAddClick : Bool
  fallbackAddClick : Bool
  restaurantOpened : Bool
  menuAddClick : Bool
  detailsDialogAdd : Bool
  custEnv : CustEnv
  addedOkSignal : Bool
  modalAddPresent1 : Bool
  domAfter : CartDom
  modalAddPresent2 : Bool

def swiggyAfterClick (p : SwiggyPage) (preCount : Int) (t0 : List SwEvent) :
    Bool × List SwEvent :=
  let t1 := t0 ++ (if p.detailsDialogAdd then [SwEvent.detailsDialogAdd] else [])
  let _custResult := handleCustomization p.custEnv
  let t2 := t1 ++ [SwEvent.runCustomization]
  let t3 := t2 ++
    (if !p.addedOkSignal then
      [if p.modalAddPresent1 then SwEvent.verifyRetryModalAdd else SwEvent.verifyRetryCardAdd]
    else [])
  let postCount := getCartCount p.domAfter
  let t4 := t3 ++
    (if postCount ≤ preCount then
      [if p.modalAddPresent2 then SwEvent.countRetryModalAdd else SwEvent.countRetryCardAdd]
    else [])
  (true, t4 ++ [SwEvent.returnTrue])

def addToCartSwiggy (p : SwiggyPage) : Bool × List SwEvent :=
  let preCount := getCartCount p.domBefore
  if p.hwAddClick || p.fallbackAddClick then
    swiggyAfterClick p preCount [SwEvent.addClick]
  else if !p.restaurantOpened then (false, [SwEvent.returnFalse])
  else if !p.menuAddClick then (false, [SwEvent.openRestaurant, SwEvent.returnFalse])
  else swiggyAfterClick p preCount [SwEvent.openRestaurant, SwEvent.menuAddClick]

def countRetryEvents (t : List SwEvent) : Nat :=
  t.count SwEvent.countRetryModalAdd + t.count SwEvent.countRetryCardAdd

/-! ## The Lenskart branch of addToCart (src/automation.js lines 1267-1443)

A one-shot `targetcreated` listener is registered (the `newPagePromise` at
lines 1272-1277) before the product card is clicked.  The promise carries no
timeout and is not raced against one: when the click never spawns a new
target, `await newPagePromise` at line 1293 suspends forever, which the
model renders as the result `none`.  After the switch to the new tab the
primary button is detected and clicked, the lens-selection modals are walked
when the button reads SELECT LENSES, and proceed-to-checkout decides the
returned boolean. -/

inductive LkCartEvent
  | registerListener
  | productClick
  | awaitNewPage
  | switchToNewTab
  | detectPrimary
  | clickPrimary
  | lensTypeSelect
  | packageH3Click
  | packageRoleBtnClick
  | packageWrapperClick
  | packageContinue
  | checkoutClick
  | returnFalse
  | returnTrue
deriving DecidableEq

structure LkCartPage where
  productClick : Bool
  newTabFires : Bool
  primaryBtnFound : Bool
  primaryIsSelectLenses : Bool
  lensTypeModal : Bool
  lensTypeOptionFound : Bool
  packageModal : Bool
  packageH3Found : Bool
  packageRoleBtnFound : Bool
  packageWrapperClickOk : Bool
  packageContinueFound : Bool
  checkoutOk : Bool
deriving DecidableEq

def lensSelectionEvents (p : LkCartPage) : List LkCartEvent :=
  (if p.lensTypeModal && p.lensTypeOptionFound then [LkCartEvent.lensTypeSelect] else []) ++
    (if p.packageModal then
      (if p.packageH3Found then [LkCartEvent.packageH3Click]
       else if p.packageRoleBtnFound then [LkCartEvent.packageRoleBtnClick]
       else if p.packageWrapperClickOk then [LkCartEvent.packageWrapperClick] else []) ++
        (if (p.packageH3Found || p.packageRoleBtnFound || p.packageWrapperClickOk) &&
            p.packageContinueFound then [LkCartEvent.packageContinue]
        else [])
    else [])

def addToCartLenskart (p : LkCartPage) : Option Bool × List LkCartEvent :=
  let t1 := [LkCartEvent.registerListener, LkCartEvent.productClick]
  if !p.productClick then (some false, t1 ++ [LkCartEvent.returnFalse])
  else if !p.newTabFires then (none, t1)
  else
    let t2 := t1 ++ [LkCartEvent.awaitNewPage, LkCartEvent.switchToNewTab,
      LkCartEvent.detectPrimary]
    if !p.primaryBtnFound then (some false, t2 ++ [LkCartEvent.returnFalse])
    else
      let t3 := t2 ++ [LkCartEvent.clickPrimary] ++
        (if p.primaryIsSelectLenses then lensSelectionEvents p else [])
      if p.checkoutOk then (some true, t3 ++ [LkCartEvent.checkoutClick, LkCartEvent.returnTrue])
      else (some false, t3 ++ [LkCartEvent.returnFalse])

/-! ## The run method (src/automation.js lines 1652-1699)

`run` awaits `signin` and (when the site requires it) `setLocation` without
inspecting their boolean results; a false `search` or `addToCart` result is
converted into a thrown error, which the `catch` block reports after a final
diagnostic screenshot and re-raises; `openCartTopbar` (non-Lenskart only) is
likewise awaited without inspection before the success log. -/

structure RunEnv where
  initOk : Bool
  signinResult : Bool
  requiresLocation : Bool
  locationResult : Bool
  searchResult : Bool
  cartResult : Bool
  siteIsLenskart : Bool
  openCartResult : Bool
deriving DecidableEq

inductive RunEvent
  | initPhase
  | signinPhase
  | setLocationPhase
  | searchPhase
  | addToCartPhase
  | openCartPhase
  | finalDiagnostic
  | successLog
  | browserClose
deriving DecidableEq

def run (e : RunEnv) : Except String Unit × List RunEvent :=
  if !e.initOk then
    (Except.error "init failed",
      [RunEvent.initPhase, RunEvent.finalDiagnostic, RunEvent.browserClose])
  else
    let t1 := [RunEvent.initPhase, RunEvent.signinPhase] ++
      (if e.requiresLocation then [RunEvent.setLocationPhase] else []) ++
        [RunEvent.searchPhase]
    if !e.searchResult then
      (Except.error "Search failed", t1 ++ [RunEvent.finalDiagnostic, RunEvent.browserClose])
    else
      let t2 := t1 ++ [RunEvent.addToCartPhase]
      if !e.cartResult then
        (Except.error "Add to cart failed",
          t2 ++ [RunEvent.finalDiagnostic, RunEvent.browserClose])
      else
        (Except.ok (),
          t2 ++ (if !e.siteIsLenskart then [RunEvent.openCartPhase] else []) ++
            [RunEvent.successLog, RunEvent.browserClose])

/-! ### Concrete pages and environments used by witnesses and counterexamples -/

def pgNone : ClickPage := ⟨fun _ _ => false, fun _ _ => false⟩

def pgPass2 : ClickPage := ⟨fun a _ => a == 2, fun _ _ => true⟩

def pgVisNoClick : ClickPage := ⟨fun _ _ => true, fun _ s => s == "b"⟩

def emptyCustEnv : CustEnv := ⟨false, false, fun _ => ⟨false, false, false, false, false⟩⟩

def custAllNothing : CustEnv := ⟨true, false, fun _ => ⟨false, false, false, false, false⟩⟩

def domNegBadge : CartDom := ⟨some "-5", none, false⟩

def domFallbackCount : CartDom := ⟨none, some "Cart 3", false⟩

def domEmptyCart : CartDom := ⟨none, none, false⟩

def domSingleOtpInput : AuthDomA := ⟨true, false, [⟨true, false⟩]⟩

def domBQuiet : AuthDomB := ⟨false, false, false, true, true, false, true, false⟩

def swC1page : SwiggyPage :=
  { domBefore := domEmptyCart
    hwAddClick := true
    fallbackAddClick := false
    restaurantOpened := false
    menuAddClick := false
    detailsDialogAdd := false
    custEnv := emptyCustEnv
    addedOkSignal := true
    modalAddPresent1 := false
    domAfter := domEmptyCart
    modalAddPresent2 := true }

def swIncreasedPage : SwiggyPage :=
  { domBefore := domEmptyCart
    hwAddClick := true
    fallbackAddClick := false
    restaurantOpened := false
    menuAddClick := false
    detailsDialogAdd := false
    custEnv := emptyCustEnv
    addedOkSignal := true
    modalAddPresent1 := false
    domAfter := ⟨some "1", none, false⟩
    modalAddPresent2 := true }

def lkC2page : LkCartPage :=
  { productClick := true
    newTabFires := false
    primaryBtnFound := true
    primaryIsSelectLenses := false
    lensTypeModal := false
    lensTypeOptionFound := false
    packageModal := false
    packageH3Found := false
    packageRoleBtnFound := false
    packageWrapperClickOk := false
    packageContinueFound := false
    checkoutOk := true }

def lkHappyPage : LkCartPage :=
  { productClick := true
    newTabFires := true
    primaryBtnFound := true
    primaryIsSelectLenses := false
    lensTypeModal := false
    lensTypeOptionFound := false
    packageModal := false
    packageH3Found := false
    packageRoleBtnFound := false
    packageWrapperClickOk := false
    packageContinueFound := false
    checkoutOk := true }

def pgEsc : ModalPage := ⟨fun _ => false, true⟩

def domBadBadge : CartDom := ⟨some "abc", none, false⟩

def domEvalFails : CartDom := ⟨some "7", none, true⟩

def runHappyEnv : RunEnv := ⟨true, false, true, false, true, true, false, false⟩

def custWizard3 : CustEnv :=
  ⟨true, false, fun k =>
    if k < 3 then ⟨false, false, false, true, false⟩ else ⟨false, true, false, false, false⟩⟩

def trajA0 : Nat → AuthDomA := fun _ => domSingleOtpInput

def trajB0 : Nat → AuthDomB := fun _ => domBQuiet

/-! ### Helper lemmas for the utils embedding -/

lemma clickPass_allFail (pg : ClickPage) (slice : ℚ) (a : Nat) (sels : List String)
    (h : ∀ s ∈ sels, (pg.waitOk a s && pg.clickOk a s) = false) :
    clickPass pg slice a sels = (false, sels.map fun s => ⟨a, s, slice⟩) := by
  induction sels with
  | nil => rfl
  | cons s rest ih =>
    have hs : (pg.waitOk a s && pg.clickOk a s) = false := h s (List.mem_cons_self s rest)
    simp only [clickPass, hs, if_neg Bool.false_ne_true, List.map_cons]
    rw [ih fun t ht => h t (List.mem_cons_of_mem s ht)]

lemma clickPass_firstSuccess (pg : ClickPage) (slice : ℚ) (a : Nat)
    (l1 : List String) (s : String) (l2 : List String)
    (h1 : ∀ t ∈ l1, (pg.waitOk a t && pg.clickOk a t) = false)
    (hs : (pg.waitOk a s && pg.clickOk a s) = true) :
    clickPass pg slice a (l1 ++ s :: l2) =
      (true, (l1.map fun t => ⟨a, t, slice⟩) ++ [⟨a, s, slice⟩]) := by
  induction l1 with
  | nil => simp [clickPass, hs]
  | cons t rest ih =>
    have ht : (pg.waitOk a t && pg.clickOk a t) = false := h1 t (List.mem_cons_self t rest)
    have ihh := ih fun u hu => h1 u (List.mem_cons_of_mem t hu)
    simp only [List.cons_append, clickPass, ht, if_neg Bool.false_ne_true, List.map_cons,
      List.append_eq, ihh]

lemma clickPass_someSuccess (pg : ClickPage) (slice : ℚ) (a : Nat) (sels : List String)
    (h : ∃ s ∈ sels, (pg.waitOk a s && pg.clickOk a s) = true) :
    (clickPass pg slice a sels).1 = true := by
  induction sels with
  | nil => simp at h
  | cons s rest ih =>
    obtain ⟨t, ht, htt⟩ := h
    rcases List.mem_cons.mp ht with rfl | hmem
    · simp [clickPass, htt]
    · by_cases hc : (pg.waitOk a s && pg.clickOk a s) = true
      · simp [clickPass, hc]
      · simp only [clickPass, if_neg hc]
        exact ih ⟨t, hmem, htt⟩

lemma clickPass_pass_mem (pg : ClickPage) (slice : ℚ) (a : Nat) (sels : List String) :
    ∀ c ∈ (clickPass pg slice a sels).2, c.pass = a ∧ c.slice = slice := by
  induction sels with
  | nil => intro c hc; simp [clickPass] at hc
  | cons s rest ih =>
    intro c hc
    by_cases h : (pg.waitOk a s && pg.clickOk a s) = true
    · simp [clickPass, h] at hc
      subst hc; exact ⟨rfl, rfl⟩
    · simp only [clickPass, if_neg h, List.mem_cons] at hc
      rcases hc with rfl | hc
      · exact ⟨rfl, rfl⟩
      · exact ih c hc

lemma clickElementGo_allFail (pg : ClickPage) (sels : List String) (slice : ℚ)
    (r : Nat) : ∀ a : Nat,
    (∀ b s, (pg.waitOk b s && pg.clickOk b s) = false) →
    (clickElementGo pg sels slice a r).1 = false ∧
    (clickElementGo pg sels slice a r).2.length = r * sels.length := by
  induction r with
  | zero => intro a _; exact ⟨rfl, by simp [clickElementGo]⟩
  | succ r ih =>
    intro a h
    have hp := clickPass_allFail pg slice a sels (fun s _ => h a s)
    simp only [clickElementGo, hp, if_neg Bool.false_ne_true]
    obtain ⟨ih1, ih2⟩ := ih (a + 1) h
    constructor
    · exact ih1
    · simp [List.length_append, List.length_map, ih2, Nat.succ_mul, Nat.add_comm]

lemma clickPass_ne_nil (pg : ClickPage) (slice : ℚ) (a : Nat) (s : String)
    (rest : List String) : (clickPass pg slice a (s :: rest)).2 ≠ [] := by
  by_cases h : (pg.waitOk a s && pg.clickOk a s) = true <;> simp [clickPass, h]

lemma clickElementGo_slice (pg : ClickPage) (sels : List String) (slice : ℚ) :
    ∀ (r a : Nat), ∀ c ∈ (clickElementGo pg sels slice a r).2, c.slice = slice := by
  intro r
  induction r with
  | zero => intro a c hc; simp [clickElementGo] at hc
  | succ r ih =>
    intro a c hc
    by_cases hp : (clickPass pg slice a sels).1 = true
    · simp only [clickElementGo, hp, if_true] at hc
      exact (clickPass_pass_mem pg slice a sels c hc).2
    · have hp' : (clickPass pg slice a sels).1 = false := by simpa using hp
      simp only [clickElementGo, hp', Bool.false_eq_true, if_false, List.mem_append] at hc
      rcases hc with hc | hc
      · exact (clickPass_pass_mem pg slice a sels c hc).2
      · exact ih (a + 1) c hc

lemma lastPass_of_all (k : Nat) : ∀ t : List WaitCall, t ≠ [] →
    (∀ c ∈ t, c.pass = k) → lastPass t = some k := by
  intro t
  induction t with
  | nil => intro h; simp at h
  | cons c rest ih =>
    intro _ h
    cases rest with
    | nil => simp [lastPass, h c (by simp)]
    | cons d rest2 =>
      have hrec := ih (by simp) fun x hx => h x (List.mem_cons_of_mem c hx)
      simpa [lastPass, List.getLast?_cons_cons] using hrec

lemma lastPass_append (t1 t2 : List WaitCall) (h : t2 ≠ []) :
    lastPass (t1 ++ t2) = lastPass t2 := by
  unfold lastPass
  rw [List.map_append, List.getLast?_append_of_ne_nil _ (by simpa using h)]

lemma clickElementGo_success (pg : ClickPage) (sels : List String) (slice : ℚ) (k : Nat)
    (hk : ∃ s ∈ sels, (pg.waitOk k s && pg.clickOk k s) = true)
    (hfail : ∀ b s, b < k → (pg.waitOk b s && pg.clickOk b s) = false) :
    ∀ (r a : Nat), a ≤ k → k < a + r →
      (clickElementGo pg sels slice a r).1 = true ∧
      lastPass (clickElementGo pg sels slice a r).2 = some k := by
  intro r
  induction r with
  | zero => intro a ha hlt; omega
  | succ r ih =>
    intro a ha hlt
    rcases Nat.eq_or_lt_of_le ha with rfl | hlt2
    · have hp := clickPass_someSuccess pg slice a sels hk
      have hne : (clickPass pg slice a sels).2 ≠ [] := by
        rcases sels with _ | ⟨s, rest⟩
        · obtain ⟨s, hs, _⟩ := hk; simp at hs
        · exact clickPass_ne_nil pg slice a s rest
      have hlast := lastPass_of_all a _ hne fun c hc => (clickPass_pass_mem pg slice a sels c hc).1
      exact ⟨by simp [clickElementGo, hp], by simp [clickElementGo, hp, hlast]⟩
    · have hp := clickPass_allFail pg slice a sels fun s _ => hfail a s hlt2
      obtain ⟨ih1, ih2⟩ := ih (a + 1) hlt2 (by omega)
      have hne : (clickElementGo pg sels slice (a + 1) r).2 ≠ [] := by
        intro hnil
        rw [hnil] at ih2
        simp [lastPass] at ih2
      constructor
      · simp [clickElementGo, hp, ih1]
      · simp only [clickElementGo, hp, Bool.false_eq_true, if_false]
        rw [lastPass_append _ _ hne, ih2]

/-- C3: claim as stated — `clickElement` partitions its timeout budget across
`retries × |selectors|` per-selector waits.  Refuted at `timeout = 12`,
`retries = 3`, two selectors, a page with nothing clickable: every recorded
wait call is given the slice `12 / 3 = 4`, whereas the claimed partition
would give `12 / (3 * 2) = 2`. -/
theorem c3_counterexample :
    (((clickElement ⟨fun _ _ => false, fun _ _ => false⟩ ["a", "b"] 12 3).2.map
      WaitCall.slice) = [4, 4, 4, 4, 4, 4] ∧ (12 : ℚ) / (3 * 2) ≠ 4) := by
  constructor
  · show List.map WaitCall.slice (clickElementGo _ _ ((12 : ℚ) / (3 : ℚ)) 1 3).2 = _
    norm_num [clickElementGo, clickPass]
  · norm_num

/-- C3 (amended): `clickElement` gives every per-selector wait the slice
`timeout / retries` (the budget is partitioned across the retry passes only,
each selector in a pass receiving the full pass slice); when every selector
fails in every pass it performs exactly `R` full passes over the list
(`R * |S|` recorded waits) and returns `false` without raising; when a
selector first succeeds during the k-th pass it returns `true` immediately,
the k-th pass being the last one performed — the result is a bare boolean
and carries no attempts field. -/
theorem c3_retry_accounting :
    (∀ (pg : ClickPage) (sels : List String) (timeout : ℚ) (R : Nat),
      (∀ b s, (pg.waitOk b s && pg.clickOk b s) = false) →
        (clickElement pg sels timeout R).1 = false ∧
        (clickElement pg sels timeout R).2.length = R * sels.length ∧
        ∀ c ∈ (clickElement pg sels timeout R).2, c.slice = timeout / (R : ℚ)) ∧
    (∀ (pg : ClickPage) (sels : List String) (timeout : ℚ) (R k : Nat),
      1 ≤ k → k ≤ R →
      (∀ b s, b < k → (pg.waitOk b s && pg.clickOk b s) = false) →
      (∃ s ∈ sels, (pg.waitOk k s && pg.clickOk k s) = true) →
        (clickElement pg sels timeout R).1 = true ∧
        lastPass (clickElement pg sels timeout R).2 = some k) := by
  constructor
  · intro pg sels timeout R hfail
    obtain ⟨h1, h2⟩ := clickElementGo_allFail pg sels (timeout / (R : ℚ)) R 1 hfail
    exact ⟨h1, h2, fun c hc => clickElementGo_slice pg sels (timeout / (R : ℚ)) R 1 c hc⟩
  · intro pg sels timeout R k hk1 hkR hfail hsucc
    exact clickElementGo_success pg sels (timeout / (R : ℚ)) k hsucc hfail R 1 hk1 (by omega)

/-- C3 witness: both branches of `c3_retry_accounting` at concrete pages —
a page with nothing clickable (two passes, failure) and a page that becomes
clickable in pass 2 (success with the second pass the last one). -/
theorem c3_witness :
    ((clickElement pgNone ["a"] 10 2).1 = false ∧
      (clickElement pgNone ["a"] 10 2).2.length = 2 * (["a"] : List String).length) ∧
    ((clickElement pgPass2 ["a", "b"] 10 3).1 = true ∧
      lastPass (clickElement pgPass2 ["a", "b"] 10 3).2 = some 2) := by
  constructor
  · have h := c3_retry_accounting.1 pgNone ["a"] 10 2 fun b s => rfl
    exact ⟨h.1, h.2.1⟩
  · exact c3_retry_accounting.2 pgPass2 ["a", "b"] 10 3 2 (by decide) (by decide)
      (fun b s hb => by simp [pgPass2]; omega) ⟨"a", by simp, by decide⟩

/-- C6: claim as stated — the first selector that resolves to a visible
element is used and no later selector is probed after that success.  Refuted
on `clickElement`: on `pgVisNoClick` every selector's visibility wait
succeeds, but the click on "a" throws, so "b" is probed after "a" already
resolved visible. -/
theorem c6_counterexample :
    pgVisNoClick.waitOk 1 "a" = true ∧
    (clickElement pgVisNoClick ["a", "b"] 10 1).2.map WaitCall.sel = ["a", "b"] ∧
    (clickElement pgVisNoClick ["a", "b"] 10 1).1 = true := by
  refine ⟨rfl, ?_, ?_⟩ <;> simp [clickElement, clickElementGo, clickPass, pgVisNoClick]

/-- C6 (amended): selectors are probed in list order with a per-selector
visibility wait; `waitForSelector` uses the first selector that resolves
visible, probes nothing after it, and returns that selector itself; within a
`clickElement` pass the first selector whose visibility wait and click both
succeed is used and nothing later is probed in that pass (a selector that
resolves visible but whose click throws is skipped). -/
theorem c6_selector_fallback_order :
    (∀ (visible : String → Bool) (l1 : List String) (s : String) (l2 : List String),
      (∀ t ∈ l1, visible t = false) → visible s = true →
        waitForSelector visible (l1 ++ s :: l2) = (some s, l1 ++ [s])) ∧
    (∀ (pg : ClickPage) (slice : ℚ) (a : Nat) (l1 : List String) (s : String)
        (l2 : List String),
      (∀ t ∈ l1, (pg.waitOk a t && pg.clickOk a t) = false) →
      (pg.waitOk a s && pg.clickOk a s) = true →
        clickPass pg slice a (l1 ++ s :: l2) =
          (true, (l1.map fun t => ⟨a, t, slice⟩) ++ [⟨a, s, slice⟩])) := by
  constructor
  · intro visible l1 s l2 h1 hs
    induction l1 with
    | nil => simp [waitForSelector, hs]
    | cons t rest ih =>
      have ht := h1 t (List.mem_cons_self t rest)
      have ihh := ih fun u hu => h1 u (List.mem_cons_of_mem t hu)
      simp [waitForSelector, ht, List.cons_append, ihh]
  · exact fun pg slice a l1 s l2 h1 hs => clickPass_firstSuccess pg slice a l1 s l2 h1 hs

/-- C6 witness: `waitForSelector` with "b" the first visible selector stops
at "b" and returns it; a `clickPass` on `pgVisNoClick` with only "b"
clickable succeeds at "b". -/
theorem c6_witness :
    waitForSelector (fun s => s == "b") (["a"] ++ "b" :: ["c"]) = (some "b", ["a"] ++ ["b"]) ∧
    clickPass pgVisNoClick 10 1 (["a"] ++ "b" :: []) =
      (true, (["a"].map fun t => (⟨1, t, 10⟩ : WaitCall)) ++ [⟨1, "b", 10⟩]) :=
  ⟨c6_selector_fallback_order.1 (fun s => s == "b") ["a"] "b" ["c"] (by decide) (by decide),
    c6_selector_fallback_order.2 pgVisNoClick 10 1 ["a"] "b" [] (by decide) (by decide)⟩

/-- C10: `closeModalIfPresent` falls back to Escape when no selector
matches, reporting `true`, and reports `false` exactly when no selector
matched and the Escape keypress threw. -/
theorem c10_close_modal_escape_fallback :
    (∀ (pg : ModalPage) (sels : List String),
      (∀ s ∈ sels, pg.exists2s s = false) → closeModalIfPresent pg sels = pg.escapeOk) ∧
    (∀ (pg : ModalPage) (sels : List String),
      closeModalIfPresent pg sels = false ↔
        ((∀ s ∈ sels, pg.exists2s s = false) ∧ pg.escapeOk = false)) := by
  constructor
  · intro pg sels h
    induction sels with
    | nil => rfl
    | cons s rest ih =>
      have hs := h s (List.mem_cons_self s rest)
      simpa [closeModalIfPresent, hs] using ih fun t ht => h t (List.mem_cons_of_mem s ht)
  · intro pg sels
    induction sels with
    | nil => simp [closeModalIfPresent]
    | cons s rest ih =>
      by_cases hs : pg.exists2s s = true
      · simp [closeModalIfPresent, hs]
      · have hs' : pg.exists2s s = false := by simpa using hs
        simp [closeModalIfPresent, hs', ih, List.forall_mem_cons]

/-- C10 witness: with no matching selector and a working Escape key,
`closeModalIfPresent` reports `true`. -/
theorem c10_witness : closeModalIfPresent pgEsc ["x"] = true :=
  c10_close_modal_escape_fallback.1 pgEsc ["x"] (by decide)

/-- C9: claim as stated — `getCartCount` returns a non-negative integer for
every page state and returns 0 whenever the badge is absent or unparsable.
Refuted twice: a badge reading "-5" parses to the negative count -5, and an
absent badge with a fallback node reading "Cart 3" yields 3, not 0. -/
theorem c9_counterexample :
    getCartCount domNegBadge = -5 ∧ getCartCount domNegBadge < 0 ∧
    getCartCount domFallbackCount = 3 := by
  refine ⟨?_, ?_, ?_⟩ <;> decide

/-- C9 (amended): `getCartCount` is total and never throws; it returns 0
when the page evaluation fails, and 0 when the badge text does not parse as
an integer and no fallback cart-labelled node is found — so those unreadable
states are indistinguishable from an empty cart — and its result can only be
negative when the badge text itself parses as a negative integer (the
fallback path only ever produces a digit run, hence a non-negative value). -/
theorem c9_cart_count_total :
    ∀ d : CartDom,
      (d.evalFails = true → getCartCount d = 0) ∧
      (jsParseInt (d.badgeText.getD "") = none → d.cartNodeText = none → getCartCount d = 0) ∧
      (getCartCount d < 0 →
        ∃ n : Int, n < 0 ∧ jsParseInt (d.badgeText.getD "") = some n) := by
  intro d
  refine ⟨fun h => by simp [getCartCount, h], fun h1 h2 => ?_, fun h => ?_⟩
  · by_cases he : d.evalFails = true <;> simp [getCartCount, he, h1, h2]
  · by_cases he : d.evalFails = true
    · simp [getCartCount, he] at h
    · have he' : d.evalFails = false := by simpa using he
      cases hb : jsParseInt (d.badgeText.getD "") with
      | some n =>
        refine ⟨n, ?_, rfl⟩
        have hval : getCartCount d = n := by simp [getCartCount, he', hb]
        rwa [hval] at h
      | none =>
        exfalso
        rcases hc : d.cartNodeText with _ | t
        · simp [getCartCount, he', hb, hc] at h
        · rcases hm : firstNumber t with _ | m
          · simp [getCartCount, he', hb, hc, hm] at h
          · have hval : getCartCount d = (m : Int) := by simp [getCartCount, he', hb, hc, hm]
            rw [hval] at h
            exact (Int.natCast_nonneg m).not_lt h

/-- C9 witness: an unparsable badge with no fallback node reads as 0, and a
failing evaluation reads as 0. -/
theorem c9_witness : getCartCount domBadBadge = 0 ∧ getCartCount domEvalFails = 0 :=
  ⟨(c9_cart_count_total domBadBadge).2.1 (by decide) rfl,
    (c9_cart_count_total domEvalFails).1 rfl⟩

lemma swiggyAfterClick_spec (p : SwiggyPage) (preCount : Int) (t0 : List SwEvent)
    (h0 : countRetryEvents t0 = 0) :
    (swiggyAfterClick p preCount t0).1 = true ∧
    countRetryEvents (swiggyAfterClick p preCount t0).2 =
      (if getCartCount p.domAfter ≤ preCount then 1 else 0) ∧
    SwEvent.returnTrue ∈ (swiggyAfterClick p preCount t0).2 := by
  obtain ⟨h0a, h0b⟩ := Nat.add_eq_zero.mp h0
  refine ⟨rfl, ?_, by simp [swiggyAfterClick]⟩
  unfold swiggyAfterClick
  by_cases hd : p.detailsDialogAdd = true <;>
    by_cases ha : p.addedOkSignal = true <;>
      by_cases hm1 : p.modalAddPresent1 = true <;>
        by_cases hm2 : p.modalAddPresent2 = true <;>
          by_cases hcnt : getCartCount p.domAfter ≤ preCount <;>
            simp [countRetryEvents, List.count_append, hd, ha, hm1, hm2, hcnt, h0a, h0b,
              List.count_cons, List.count_nil]

/-- C1: claim as stated — when the monitored cart count has not increased
after the single verification read, `addToCart` performs exactly one retry,
and when the count still has not increased it returns `false`.  Refuted on
`swC1page`: the count never increases (both reads are 0, and the code never
re-reads after the retry), exactly one count-triggered retry happens, yet
`addToCartSwiggy` returns `true`. -/
theorem c1_counterexample :
    getCartCount swC1page.domAfter ≤ getCartCount swC1page.domBefore ∧
    countRetryEvents (addToCartSwiggy swC1page).2 = 1 ∧
    (addToCartSwiggy swC1page).1 = true := by
  refine ⟨?_, ?_, ?_⟩ <;> decide

/-- C1 (amended): on every Swiggy add-to-cart run whose initial ADD click
succeeds, the cart count is compared once (`domAfter` against `domBefore`);
when it did not increase, exactly one retry of the add action is issued —
never more — and the phase then reports success (`addToCartSwiggy` returns
`true`) without re-checking the count; a failed second increase is never
reported as a failure. -/
theorem c1_single_count_retry_then_success :
    ∀ p : SwiggyPage,
      (p.hwAddClick || p.fallbackAddClick) = true ∨
        (p.restaurantOpened = true ∧ p.menuAddClick = true) →
      (addToCartSwiggy p).1 = true ∧
      countRetryEvents (addToCartSwiggy p).2 =
        (if getCartCount p.domAfter ≤ getCartCount p.domBefore then 1 else 0) ∧
      SwEvent.returnTrue ∈ (addToCartSwiggy p).2 := by
  intro p h
  by_cases hcl : (p.hwAddClick || p.fallbackAddClick) = true
  · have := swiggyAfterClick_spec p (getCartCount p.domBefore) [SwEvent.addClick] (by decide)
    simpa [addToCartSwiggy, hcl] using this
  · rcases h with h | ⟨hro, hmenu⟩
    · exact absurd h hcl
    · have := swiggyAfterClick_spec p (getCartCount p.domBefore)
        [SwEvent.openRestaurant, SwEvent.menuAddClick] (by decide)
      have hcl' : (p.hwAddClick || p.fallbackAddClick) = false := by simpa using hcl
      simpa [addToCartSwiggy, hcl', hro, hmenu] using this

/-- C1 witness: a run where the count does increase — the ADD click
succeeds, no count-triggered retry is issued, success is reported. -/
theorem c1_witness :
    (addToCartSwiggy swIncreasedPage).1 = true ∧
    countRetryEvents (addToCartSwiggy swIncreasedPage).2 =
      (if getCartCount swIncreasedPage.domAfter ≤ getCartCount swIncreasedPage.domBefore
       then 1 else 0) ∧
    SwEvent.returnTrue ∈ (addToCartSwiggy swIncreasedPage).2 :=
  c1_single_count_retry_then_success swIncreasedPage (Or.inl rfl)

/-- C2: claim as stated — the wait on the new-context registration is
bounded and reports a failure when the click spawns no new context.  Refuted
on `lkC2page`: the product click succeeds, no new target is ever created,
and the `await` on the listener promise suspends forever (result `none`),
reporting nothing. -/
theorem c2_counterexample :
    lkC2page.productClick = true ∧ lkC2page.newTabFires = false ∧
    (addToCartLenskart lkC2page).1 = none := by
  refine ⟨rfl, rfl, ?_⟩
  decide

/-- C2 (amended): the one-shot `targetcreated` listener is registered before
the triggering product click — the trace always begins with the registration
followed by the click — but the subsequent wait is unbounded: whenever the
click succeeds and no new browsing context is ever created, the `await`
suspends indefinitely instead of timing out with a reported failure. -/
theorem c2_subscribe_before_trigger :
    ∀ p : LkCartPage,
      (addToCartLenskart p).2.take 2 =
        [LkCartEvent.registerListener, LkCartEvent.productClick] ∧
      (p.productClick = true → p.newTabFires = false → (addToCartLenskart p).1 = none) := by
  intro p
  constructor
  · unfold addToCartLenskart
    split_ifs <;> rfl
  · intro h1 h2
    simp [addToCartLenskart, h1, h2]

/-- C2 witness: on the concrete page whose click spawns no new target, the
trace starts with the registration then the click, and the flow never
resolves. -/
theorem c2_witness :
    (addToCartLenskart lkC2page).2.take 2 =
      [LkCartEvent.registerListener, LkCartEvent.productClick] ∧
    (addToCartLenskart lkC2page).1 = none :=
  ⟨(c2_subscribe_before_trigger lkC2page).1,
    (c2_subscribe_before_trigger lkC2page).2 rfl rfl⟩

/-- C5: the run-level fatality policy — the outcome of `run` depends only on
init, search and addToCart: a false `search` result aborts with the
re-raised "Search failed" error after a final diagnostic capture, a false
`addToCart` result aborts with "Add to cart failed" likewise, and the
signin, setLocation and openCartTopbar results never influence the outcome,
the run being reported successful whenever search and addToCart succeed. -/
theorem c5_fatality_policy :
    ∀ e : RunEnv, e.initOk = true →
      ((run e).1 =
        (if e.searchResult = false then Except.error "Search failed"
         else if e.cartResult = false then Except.error "Add to cart failed"
         else Except.ok ())) ∧
      (e.searchResult = false → RunEvent.finalDiagnostic ∈ (run e).2) ∧
      (e.searchResult = true → e.cartResult = false → RunEvent.finalDiagnostic ∈ (run e).2) ∧
      (e.searchResult = true → e.cartResult = true →
        (run e).1 = Except.ok () ∧ RunEvent.successLog ∈ (run e).2) := by
  intro e he
  rcases e with ⟨i, s, rl, lr, sr, cr, sl, ocr⟩
  simp only at he
  subst he
  cases sr <;> cases cr <;> cases rl <;> cases sl <;> simp [run]

/-- C5 witness: a run whose signin, setLocation and openCartTopbar all
failed but whose search and addToCart succeeded is reported successful. -/
theorem c5_witness :
    (run runHappyEnv).1 = Except.ok () ∧ RunEvent.successLog ∈ (run runHappyEnv).2 :=
  (c5_fatality_policy runHappyEnv rfl).2.2.2 rfl rfl

/-- C7: claim as stated — exhausting the customization step budget without
reaching the terminal add control is reported as customization failure.
Refuted on `custAllNothing`: the loop finds nothing for all six steps and
does not complete, the final direct submit attempt is made, yet
`handleCustomization` reports success (`true`). -/
theorem c7_counterexample :
    (custLoop custAllNothing.steps 0 6).1 = false ∧
    (handleCustomization custAllNothing).1 = true ∧
    CustEvent.finalDirectAttempt ∈ (handleCustomization custAllNothing).2 := by
  refine ⟨?_, ?_, ?_⟩ <;> decide

/-- C7 (amended): the Swiggy customization wizard loops for at most 6 steps,
each step preferring the continue control, then the terminal add control
(which completes the loop in that single iteration), then the first visible
radio (clicked and looped), then any continue/add-labelled dialog button as
a last resort; the trace is bounded by the fuel; exhausting the budget
without completing triggers a final direct attempt at the configured submit
selectors, after which the method still returns `true` (it never reports
customization failure) and the outer AddToCart phase ignores the result. -/
theorem c7_customization_ladder :
    (∀ e : CustEnv, (handleCustomization e).1 = true) ∧
    (∀ e : CustEnv, e.modalPresent = true → (custLoop e.steps 0 6).1 = false →
      (handleCustomization e).2 = (custLoop e.steps 0 6).2 ++ [CustEvent.finalDirectAttempt]) ∧
    (∀ (steps : Nat → CustStep) (step fuel : Nat),
      (custLoop steps step fuel).2.length ≤ fuel) ∧
    (∀ (steps : Nat → CustStep) (step fuel : Nat),
      ((steps step).continueBtn = true →
        custLoop steps step (fuel + 1) =
          ((custLoop steps (step + 1) fuel).1,
            CustEvent.clickContinue step :: (custLoop steps (step + 1) fuel).2)) ∧
      ((steps step).continueBtn = false →
        ((steps step).addBtnDataCy || (steps step).addBtnByText) = true →
        custLoop steps step (fuel + 1) = (true, [CustEvent.clickFinalAdd step])) ∧
      ((steps step).continueBtn = false →
        ((steps step).addBtnDataCy || (steps step).addBtnByText) = false →
        (steps step).visibleRadio = true →
        custLoop steps step (fuel + 1) =
          ((custLoop steps (step + 1) fuel).1,
            CustEvent.pickRadio step :: (custLoop steps (step + 1) fuel).2)) ∧
      ((steps step).continueBtn = false →
        ((steps step).addBtnDataCy || (steps step).addBtnByText) = false →
        (steps step).visibleRadio = false →
        custLoop steps step (fuel + 1) =
          ((custLoop steps (step + 1) fuel).1,
            (if (steps step).lastResortBtn then [CustEvent.lastResortClick step] else []) ++
              (custLoop steps (step + 1) fuel).2))) := by
  refine ⟨?_, ?_, ?_, ?_⟩
  · intro e
    rcases hr : custLoop e.steps 0 6 with ⟨b, t⟩
    simp only [handleCustomization, hr]
    split_ifs <;> rfl
  · intro e h1 h2
    simp [handleCustomization, h1, h2]
  · intro steps step fuel
    induction fuel generalizing step with
    | zero => simp [custLoop]
    | succ fuel ih =>
      by_cases hc : (steps step).continueBtn = true
      · simpa [custLoop, hc] using Nat.succ_le_succ (ih (step + 1))
      · have hc' : (steps step).continueBtn = false := by simpa using hc
        by_cases hadd : ((steps step).addBtnDataCy || (steps step).addBtnByText) = true
        · simp [custLoop, hc', hadd]
        · have hadd' : ((steps step).addBtnDataCy || (steps step).addBtnByText) = false := by
            simpa using hadd
          by_cases hr : (steps step).visibleRadio = true
          · simpa [custLoop, hc', hadd', hr] using Nat.succ_le_succ (ih (step + 1))
          · have hr' : (steps step).visibleRadio = false := by simpa using hr
            by_cases hl : (steps step).lastResortBtn = true
            · simpa [custLoop, hc', hadd', hr', hl] using Nat.succ_le_succ (ih (step + 1))
            · have hl' : (steps step).lastResortBtn = false := by simpa using hl
              calc (custLoop steps step (fuel + 1)).2.length
                  = (custLoop steps (step + 1) fuel).2.length := by
                    simp [custLoop, hc', hadd', hr', hl']
                _ ≤ fuel := ih (step + 1)
                _ ≤ fuel + 1 := Nat.le_succ fuel
  · intro steps step fuel
    exact ⟨fun h1 => by simp [custLoop, h1], fun h1 h2 => by simp [custLoop, h1, h2],
      fun h1 h2 h3 => by simp [custLoop, h1, h2, h3],
      fun h1 h2 h3 => by simp [custLoop, h1, h2, h3]⟩

/-- C7 witness: a wizard needing three radio selections before the submit
control appears completes, its traces stay within the budget, and a step
showing the terminal add control completes in that single iteration. -/
theorem c7_witness :
    (handleCustomization custWizard3).1 = true ∧
    (custLoop custWizard3.steps 0 6).2.length ≤ 6 ∧
    custLoop custWizard3.steps 3 3 = (true, [CustEvent.clickFinalAdd 3]) := by
  refine ⟨c7_customization_ladder.1 custWizard3,
    c7_customization_ladder.2.2.1 custWizard3.steps 0 6, ?_⟩
  exact (c7_customization_ladder.2.2.2 custWizard3.steps 3 2).2.1 (by decide) (by decide)

lemma waitPollGo_some (p : Nat → Bool) :
    ∀ (r t0 t : Nat), waitPollGo p t0 r = some t → t0 ≤ t ∧ t < t0 + r ∧ p t = true := by
  intro r
  induction r with
  | zero => intro t0 t h; simp [waitPollGo] at h
  | succ r ih =>
    intro t0 t h
    by_cases hp : p t0 = true
    · simp [waitPollGo, hp] at h
      subst h
      exact ⟨Nat.le_refl t0, by omega, hp⟩
    · have hp' : p t0 = false := by simpa using hp
      simp [waitPollGo, hp'] at h
      obtain ⟨h1, h2, h3⟩ := ih (t0 + 1) t h
      exact ⟨by omega, by omega, h3⟩

lemma waitPollGo_none (p : Nat → Bool) :
    ∀ (r t0 : Nat), waitPollGo p t0 r = none → ∀ t, t0 ≤ t → t < t0 + r → p t = false := by
  intro r
  induction r with
  | zero => intro t0 _ t h1 h2; omega
  | succ r ih =>
    intro t0 h t h1 h2
    by_cases hp : p t0 = true
    · simp [waitPollGo, hp] at h
    · have hp' : p t0 = false := by simpa using hp
      simp [waitPollGo, hp'] at h
      rcases Nat.eq_or_lt_of_le h1 with rfl | hlt
      · exact hp'
      · exact ih (t0 + 1) h t hlt (by omega)

lemma waitPollGo_const_false (p : Nat → Bool) (hp : ∀ t, p t = false) :
    ∀ (r t0 : Nat), waitPollGo p t0 r = none := by
  intro r
  induction r with
  | zero => intro t0; rfl
  | succ r ih => intro t0; simp [waitPollGo, hp t0, ih]

/-- C4: claim as stated — Phase A waits for dialog text or a cluster of 4 to
6 single-character inputs.  Refuted: a dialog holding a single
`maxlength="1"` input already satisfies the code's Phase A predicate while
the claimed 4-to-6-cluster predicate rejects it. -/
theorem c4_counterexample :
    phaseApred domSingleOtpInput = true ∧ phaseApredClaim domSingleOtpInput = false := by
  exact ⟨by decide, by decide⟩

/-- C4 (amended): the OTP wait runs two bounded polls — Phase A (30000 ms
bound) for the code's appearance evidence (dialog text, or any input with
`maxlength="1"` or an otp-hinted attribute, not specifically a 4-6 cluster),
Phase B (60000 ms bound) for the authenticated signal (Lenskart: sign-in
form gone with header or account button present; generically: challenge
invisible and sign-in trigger absent or signed-in header) — a poll returning
`some t` fires within its bound with the predicate true at `t`, a poll
returning `none` means the predicate held at no instant within the bound,
and expiry is non-fatal: the Phase B timeout is merely logged as `timedOut`
and `signin` still returns `true`. -/
theorem c4_two_phase_otp_wait :
    (∀ (a : Nat → AuthDomA) (b : Nat → AuthDomB), (otpWaitTail a b).2 = true) ∧
    (∀ (a : Nat → AuthDomA) (b : Nat → AuthDomB),
      waitPoll (fun t => phaseBpred (b t)) phaseBTimeoutMs = none →
        otpWaitTail a b = (WaitOutcome.timedOut, true)) ∧
    (∀ (p : Nat → Bool) (bound t : Nat),
      waitPoll p bound = some t → t ≤ bound ∧ p t = true) ∧
    (∀ (p : Nat → Bool) (bound : Nat),
      waitPoll p bound = none → ∀ t ≤ bound, p t = false) := by
  refine ⟨?_, ?_, ?_, ?_⟩
  · intro a b
    cases h : waitPoll (fun t => phaseBpred (b t)) phaseBTimeoutMs with
    | none => simp [otpWaitTail, h]
    | some t => simp [otpWaitTail, h]
  · intro a b h
    simp [otpWaitTail, h]
  · intro p bound t h
    obtain ⟨h1, h2, h3⟩ := waitPollGo_some p (bound + 1) 0 t h
    exact ⟨by omega, h3⟩
  · intro p bound h t ht
    exact waitPollGo_none p (bound + 1) 0 h t (by omega) (by omega)

/-- C4 witness: with the challenge visible throughout and no authenticated
signal ever appearing, Phase B times out, the timeout is logged as
`timedOut`, and signin still reports success; a small poll finding its
target at t = 2 stays within its bound. -/
theorem c4_witness :
    (otpWaitTail trajA0 trajB0).2 = true ∧
    otpWaitTail trajA0 trajB0 = (WaitOutcome.timedOut, true) ∧
    (2 ≤ 5 ∧ (fun t : Nat => t == 2) 2 = true) ∧
    (fun _ : Nat => false) 0 = false := by
  have hnone : waitPoll (fun t => phaseBpred (trajB0 t)) phaseBTimeoutMs = none :=
    waitPollGo_const_false _ (fun t => by simp [trajB0, phaseBpred, domBQuiet]) _ _
  exact ⟨c4_two_phase_otp_wait.1 trajA0 trajB0,
    c4_two_phase_otp_wait.2.1 trajA0 trajB0 hnone,
    c4_two_phase_otp_wait.2.2.1 (fun t : Nat => t == 2) 5 2 (by decide),
    c4_two_phase_otp_wait.2.2.2 (fun _ : Nat => false) 3
      (waitPollGo_const_false _ (fun t => rfl) _ _) 0 (by omega)⟩

set_option maxHeartbeats 4000000 in
/-- C8: in any single Lenskart signin run, the already-registered pivot to
sign-in is attempted at most once; after the pivot the trace holds no
further signup-form fill or submit, and every path ends at the common OTP
wait. -/
theorem c8_pivot_at_most_once :
    ∀ (m : AuthMode) (dlg cOS fNA lIF sICO cO s1 e1 p1 s2 e2 p2 : Bool),
      countPivots
          (lenskartSignin ⟨m, dlg, cOS, fNA, lIF, sICO, cO, s1, e1, p1, s2, e2, p2⟩) ≤ 1 ∧
      (afterFirstPivot
          (lenskartSignin ⟨m, dlg, cOS, fNA, lIF, sICO, cO, s1, e1, p1, s2, e2, p2⟩)).count
        AuthEvent.fillSignupForm = 0 ∧
      (afterFirstPivot
          (lenskartSignin ⟨m, dlg, cOS, fNA, lIF, sICO, cO, s1, e1, p1, s2, e2, p2⟩)).count
        AuthEvent.submitSignup = 0 ∧
      (lenskartSignin ⟨m, dlg, cOS, fNA, lIF, sICO, cO, s1, e1, p1, s2, e2, p2⟩).getLast? =
        some AuthEvent.otpWaitEv := by
  decide

end E2EAuto
